import Mathlib

/-!
Verification of MCServerNap (an on-demand Minecraft server supervisor)
against its natural-language specification.  The Rust sources under
`src/src/` are shallowly embedded below: pure functions become Lean
functions, the stateful watchdog becomes a function over an explicit
script of connection/command events, machine integers are `Nat`/`Int`
with explicit reductions modulo `2 ^ 32` where overflow matters, and
fallible code returns `Option`.
-/

/-! ## Lifecycle state machine (`src/src/lib.rs` lines 17-22, `src/src/main.rs`) -/

/-- Embedding of `ServerState` (`src/src/lib.rs` lines 17-22). -/
inductive ServerState where
  | Stopped
  | Starting
  | Running
deriving DecidableEq

/-- Modelled from the spec: the lifecycle operation `switch_to`.  It is invoked
on the mutex-guarded `ServerState` in `src/src/main.rs` (lines 121, 205, 262)
but its definition is not among the provided sources, so it is modelled from
spec §4.6 and §3: the call returns success (`some` of the installed variant)
exactly on the edges `Stopped → Starting`, `Starting → Running`,
`Starting → Stopped`, `Running → Stopped`, and on the no-op self-transition
`Stopped → Stopped`; every other request returns an error (`none`) and the
state is not mutated. -/
def switch_to : ServerState → ServerState → Option ServerState
  | .Stopped, .Starting => some .Starting
  | .Starting, .Running => some .Running
  | .Starting, .Stopped => some .Stopped
  | .Running, .Stopped => some .Stopped
  | .Stopped, .Stopped => some .Stopped
  | _, _ => none

/-- The set of legal transitions exactly as the claim enumerates them
(the four directed edges plus the `Stopped → Stopped` self-transition). -/
def legal_transition : ServerState → ServerState → Bool
  | .Stopped, .Starting => true
  | .Starting, .Running => true
  | .Starting, .Stopped => true
  | .Running, .Stopped => true
  | .Stopped, .Stopped => true
  | _, _ => false

/-- The state actually stored after a `switch_to` request: the new variant on
success, the unchanged current variant on error. -/
def apply_switch (cur new : ServerState) : ServerState :=
  (switch_to cur new).getD cur

/-! ## Varint codec (`src/src/lib.rs` lines 24-53) -/

/-- Interpretation of a 32-bit pattern (a `Nat` below `2 ^ 32`) as a
two's-complement `i32` value. -/
def toI32 (p : Nat) : Int := if p < 2 ^ 31 then (p : Int) else (p : Int) - 2 ^ 32

/-- Loop of `read_varint` (`src/src/lib.rs` lines 25-40).  `result` is the
`i32` accumulator kept as its 32-bit pattern; the Rust
`result |= val << (7 * num_read)` truncates the shifted `i32` to 32 bits,
hence the `% 2 ^ 32` on the shifted septet. -/
def read_varint_loop : List Nat → Nat → Nat → Option (Int × Nat)
  | [], _, _ => none
  | b :: rest, numRead, result =>
    if b &&& 0x80 = 0 then
      some (toI32 (result ||| (((b &&& 0x7F) <<< (7 * numRead)) % 2 ^ 32)), numRead + 1)
    else if 5 ≤ numRead + 1 then none
    else read_varint_loop rest (numRead + 1) (result ||| (((b &&& 0x7F) <<< (7 * numRead)) % 2 ^ 32))

/-- Embedding of `read_varint` (`src/src/lib.rs` lines 25-40): reads a
Minecraft-format varint from offset zero, returning `(value, bytes_read)`,
or `none` when malformed. -/
def read_varint (buf : List Nat) : Option (Int × Nat) := read_varint_loop buf 0 0

/-- Embedding of `write_varint` (`src/src/lib.rs` lines 43-53) with explicit
fuel for the source's unbounded `loop`; `none` means the fuel ran out with the
loop still running.  For an `i32` value `v`, the Rust test `(v & !0x7F) == 0`
holds iff `0 ≤ v < 128`, the pushed byte `(v & 0x7F) | 0x80` is
`v mod 128 + 128`, and the arithmetic shift `v >>= 7` is the floor division
`Int.fdiv v 128`. -/
def write_varint : Nat → Int → List Nat → Option (List Nat)
  | 0, _, _ => none
  | fuel + 1, val, buf =>
    if 0 ≤ val ∧ val < 128 then some (buf ++ [val.toNat])
    else write_varint fuel (Int.fdiv val 128) (buf ++ [(val % 128).toNat + 128])

/-- The byte sequence `write_varint` appends for a non-negative value, as a
recursive function of the value (the loop terminates on such inputs; see the
bridge lemma `write_varint_eq_nat`). -/
def write_varint_nat (n : Nat) : List Nat :=
  if n < 128 then [n]
  else (n % 128 + 128) :: write_varint_nat (n / 128)
  decreasing_by exact Nat.div_lt_self (by omega) (by omega)

/-! ## Handshake inspector (`src/src/lib.rs` lines 56-143, 333-391) -/

/-- A Rust subslice `&buf[start..n]` of the `n` received bytes, modelled
with its panic: `none` when the range start exceeds the subslice end. -/
def subslice (buf : List Nat) (start : Nat) : Option (List Nat) :=
  if start ≤ buf.length then some (buf.drop start) else none

/-- Observable outcome of the handshake inspector on one connection:
`login` is the returned classification (`Ok(true)` for a login handshake),
`wrote` the bytes written back to the peer. -/
structure HsResult where
  login : Bool
  wrote : List Nat
deriving DecidableEq

/-- The status response packet written by `handle_status_ping`
(`src/src/lib.rs` lines 372-381), as a function of the serialized MOTD JSON
bytes: `varint(len(data)) | data` with `data = varint(0) | varint(len(json)) |
json`.  The JSON serialization itself (lines 344-370) is not modelled; the
packet is parameterised by its result. -/
def status_packet (motdJson : List Nat) : List Nat :=
  let data := write_varint_nat 0 ++ write_varint_nat motdJson.length ++ motdJson
  write_varint_nat data.length ++ data

/-- Embedding of the parsing part of `verify_handshake_packet`
(`src/src/lib.rs` lines 86-142) on the `n` received bytes.  `buf` plays
`buf[..n]`; each `&buf[offset..n]` goes through `subslice`, so an out-of-range
offset would surface as `none` (a panic), while every `return Ok(..)` becomes
`some` of the outcome.  On next-state 1, `handle_status_ping` writes the
status packet to the peer (lines 333-391); its reply-drain read has no
observable output effect and is not modelled. -/
def verify_handshake_packet (motdJson : List Nat) (buf : List Nat) : Option HsResult :=
  match read_varint buf with
  | none => some ⟨false, []⟩
  | some (_pktLen, off1) =>
    match subslice buf off1 with
    | none => none
    | some s1 =>
      match read_varint s1 with
      | none => some ⟨false, []⟩
      | some (pktId, off2) =>
        if pktId ≠ 0 then some ⟨false, []⟩
        else
          match subslice buf (off1 + off2) with
          | none => none
          | some s2 =>
            match read_varint s2 with
            | none => some ⟨false, []⟩
            | some (_protocolVersion, len1) =>
              match subslice buf (off1 + off2 + len1) with
              | none => none
              | some s3 =>
                match read_varint s3 with
                | none => some ⟨false, []⟩
                | some (addrLen, len2) =>
                  if addrLen < 0 then some ⟨false, []⟩
                  else
                    let offset := off1 + off2 + len1 + len2 + addrLen.toNat + 2
                    if buf.length ≤ offset then some ⟨false, []⟩
                    else
                      match subslice buf offset with
                      | none => none
                      | some s4 =>
                        match read_varint s4 with
                        | none => some ⟨false, []⟩
                        | some (nextState, _) =>
                          if nextState = 1 then some ⟨false, status_packet motdJson⟩
                          else if nextState = 2 then some ⟨true, []⟩
                          else some ⟨false, []⟩

/-- A well-formed handshake packet crafted per the protocol of spec §4.2:
packet-length varint, packet-id varint, protocol-version varint,
address-length varint, address bytes, two port bytes, next-state varint. -/
def mkHandshake (pid proto : Nat) (addr : List Nat) (p1 p2 ns : Nat) : List Nat :=
  let body := write_varint_nat pid ++ write_varint_nat proto ++
    write_varint_nat addr.length ++ addr ++ [p1, p2] ++ write_varint_nat ns
  write_varint_nat body.length ++ body

/-! ## Configuration (`src/src/config.rs`) -/

/-- Embedding of the `Config` struct (`src/src/config.rs` lines 12-24);
`u64` fields become `Nat` (their values stay far below `2 ^ 64` here). -/
structure Config where
  rcon_poll_interval : Nat
  rcon_idle_timeout : Nat
  motd_text : String
  motd_color : String
  motd_bold : Bool
  server_icon : Option String
  connection_msg_text : String
  connection_msg_color : String
  connection_msg_bold : Bool
  config_directory_name : String
deriving DecidableEq

/-- Embedding of `Config::default` (`src/src/config.rs` lines 26-42). -/
def Config.default : Config where
  rcon_poll_interval := 60
  rcon_idle_timeout := 600
  motd_text := "Napping... Join to start server"
  motd_color := "aqua"
  motd_bold := true
  server_icon := none
  connection_msg_text := "Server is now starting up. Please wait and try again shortly..."
  connection_msg_color := "light_purple"
  connection_msg_bold := true
  config_directory_name := "config"

/-- A parsed TOML document for the configuration file: each recognised key is
present or absent, and the file may carry unrecognised extra keys. -/
structure TomlConfigDoc where
  rcon_poll_interval : Option Nat
  rcon_idle_timeout : Option Nat
  motd_text : Option String
  motd_color : Option String
  motd_bold : Option Bool
  server_icon : Option String
  connection_msg_text : Option String
  connection_msg_color : Option String
  connection_msg_bold : Option Bool
  config_directory_name : Option String
  extra_keys : List String
deriving DecidableEq

/-- Embedding of `toml::from_str::<Config>` as driven by the serde
`Deserialize` derive on `Config` (`src/src/config.rs` line 12): the derive has
no `#[serde(default)]`, so every non-`Option` field is required and its
absence fails the whole deserialization; the `Option` field `server_icon`
defaults to `None` when absent; unrecognised keys are ignored (no
`deny_unknown_fields`). -/
def toml_from_str (d : TomlConfigDoc) : Option Config :=
  match d.rcon_poll_interval, d.rcon_idle_timeout, d.motd_text, d.motd_color,
      d.motd_bold, d.connection_msg_text, d.connection_msg_color,
      d.connection_msg_bold, d.config_directory_name with
  | some a, some b, some c, some e, some f, some g, some h, some i, some j =>
    some ⟨a, b, c, e, f, d.server_icon, g, h, i, j⟩
  | _, _, _, _, _, _, _, _, _ => none

/-- Embedding of the file-reading step of `get_config`
(`src/src/config.rs` lines 104-132) in the absence of a legacy configuration
directory (lines 44-94 find none, so `config` is `Config::default()` when the
read happens): `file` is `none` when `config/cfg.toml` is absent or unreadable
(the `Err` branch keeps the default and creates the file), otherwise the
parsed document; a successful read goes through
`toml::from_str(..).unwrap_or_default()`.  Afterwards lines 115-132
unconditionally overwrite `server_icon` with the Base64 icon when
`config/server-icon.png` exists and `None` otherwise, modelled by `icon`. -/
def get_config (file : Option TomlConfigDoc) (icon : Option String) : Config :=
  let c := match file with
    | none => Config.default
    | some d => (toml_from_str d).getD Config.default
  { c with server_icon := icon }

/-! ## Player-count parsing (`src/src/lib.rs` lines 228, 272-276) -/

/-- Decimal digits of an ASCII digit run, most significant first, as a number
(how `str::parse::<u32>` evaluates a run of `0`-`9` characters). -/
def digitsToNat (ds : List Char) : Nat :=
  ds.foldl (fun acc c => acc * 10 + (c.toNat - 48)) 0

/-- Embedding of `str::parse::<u32>` on a non-empty run of ASCII digits:
the parse fails (and the source's `.ok()` turns it into `None`) exactly when
the value overflows `u32`. -/
def parse_u32 (ds : List Char) : Option Nat :=
  if digitsToNat ds < 2 ^ 32 then some (digitsToNat ds) else none

/-- Attempt of the regex `There are (\d+) of a max` at the head of `cs`:
the literal prefix, then a maximal non-empty digit run (the capture: `\d+` is
greedy and the following pattern character is a non-digit, so only the maximal
run can match here), then the literal suffix.  `\d` is modelled as an ASCII
digit. -/
def regex_match_head (cs : List Char) : Option (List Char) :=
  let pre := "There are "
  if cs.take pre.length = pre.toList then
    let rest := cs.drop pre.length
    let ds := rest.takeWhile Char.isDigit
    if ds ≠ [] ∧ (rest.drop ds.length).take " of a max".length = " of a max".toList then
      some ds
    else none
  else none

/-- Leftmost match: `Regex::captures` scans positions left to right and
returns the first capture of the first match. -/
def regex_find : List Char → Option (List Char)
  | [] => none
  | c :: cs =>
    match regex_match_head (c :: cs) with
    | some ds => some ds
    | none => regex_find cs

/-- Embedding of the player-count extraction (`src/src/lib.rs` lines 272-276):
the first capture of `There are (\d+) of a max` parsed as `u32`, and `0` when
anything along the way fails. -/
def player_count (reply : String) : Nat :=
  ((regex_find reply.data).bind parse_u32).getD 0

/-! ## Idle watchdog (`src/src/lib.rs` lines 169-287) -/

/-- One attempt of `Connection::connect` in the wait-for-RCON loop
(`src/src/lib.rs` lines 184-210): either it succeeds, or it fails with
`start.elapsed()` equal to `elapsed` seconds when the retry guard
`start.elapsed() <= Duration::from_secs(600)` is evaluated. -/
inductive ConnAttempt where
  | ok
  | err (elapsed : Nat)
deriving DecidableEq

/-- Result of the inner `cmd("list")` retry loop (`src/src/lib.rs` lines
235-269): `got reply consec sleeps` breaks out with the reply, the reset
consecutive-error counter and the number of 1-second backoff sleeps taken;
`fatal` is the `return Err(..)` branch; `pending` means the event script ended
with the loop still running (a script artifact, not a program outcome). -/
inductive RetryOutcome where
  | got (reply : String) (consec : Nat) (sleeps : Nat)
  | fatal
  | pending
deriving DecidableEq

/-- The `cmd("list")` retry loop (`src/src/lib.rs` lines 235-269) over a
script of attempts (`some reply` for `Ok`, `none` for `Err`): a success
resets `consecutive_errors` to 0 and breaks with the reply; an error with
`consecutive_errors < 5` increments the counter, sleeps 1 s and retries;
otherwise the loop exits fatally. -/
def rcon_retry_loop : List (Option String) → Nat → Nat → RetryOutcome
  | [], _, _ => .pending
  | some r :: _, _, sleeps => .got r 0 sleeps
  | none :: rest, consec, sleeps =>
    if consec < 5 then rcon_retry_loop rest (consec + 1) (sleeps + 1)
    else .fatal

/-- One iteration of the polling loop: the scripted `cmd("list")` attempts of
this tick and the value of `Instant::now()` (in seconds) when the reply is
processed. -/
structure PollIter where
  attempts : List (Option String)
  now : Nat
deriving DecidableEq

/-- How the watchdog task ends: `Ok(())`, `Err(..)`, or the script ended
while the task was still running. -/
inductive WdExit where
  | success
  | error
  | pending
deriving DecidableEq

/-- Observable outcome of a watchdog run: how the task exited, the value left
in the shared `server_state` cell, and whether the `stop` command was sent. -/
structure WdResult where
  exit : WdExit
  state : ServerState
  sentStop : Bool
deriving DecidableEq

/-- The polling loop of `idle_watchdog_rcon` (`src/src/lib.rs` lines 227-286).
Each iteration runs the retry loop; a fatal command failure stores `Stopped`
in the shared state and exits with an error (lines 250-267).  Otherwise the
reply is parsed: a positive count records the current instant in
`last_online` (line 279); else if `last_online.elapsed() >= timeout` the
task sends `stop` ignoring the reply and breaks with success (lines 280-284);
else the next tick proceeds. -/
def wd_poll (idleTimeout : Nat) : List PollIter → Nat → Nat → ServerState → WdResult
  | [], _, _, st => ⟨.pending, st, false⟩
  | it :: rest, lastOnline, consec, st =>
    match rcon_retry_loop it.attempts consec 0 with
    | .pending => ⟨.pending, st, false⟩
    | .fatal => ⟨.error, .Stopped, false⟩
    | .got reply consec1 _ =>
      if 0 < player_count reply then wd_poll idleTimeout rest it.now consec1 st
      else if idleTimeout ≤ it.now - lastOnline then ⟨.success, st, true⟩
      else wd_poll idleTimeout rest lastOnline consec1 st

/-- The connect phase of `idle_watchdog_rcon` (`src/src/lib.rs` lines
181-225): each failed attempt retries after 1 s while
`start.elapsed() <= 600` s, and past that window stores `Stopped` in the
shared state and exits with an error; on success the watchdog stores
`Running` in the shared state and enters the polling loop with `last_online`
initialised to `startLast` (line 230). -/
def wd_connect (idleTimeout : Nat) :
    List ConnAttempt → List PollIter → Nat → ServerState → WdResult
  | [], _, _, st => ⟨.pending, st, false⟩
  | .ok :: _, polls, startLast, _ => wd_poll idleTimeout polls startLast 0 .Running
  | .err e :: rest, polls, startLast, st =>
    if e ≤ 600 then wd_connect idleTimeout rest polls startLast st
    else ⟨.error, .Stopped, false⟩

/-- Embedding of `idle_watchdog_rcon` (`src/src/lib.rs` lines 169-287) over a
script of connection attempts and poll iterations, threading the value of the
shared `server_state` cell (initially `st0`). -/
def idle_watchdog_rcon (idleTimeout : Nat) (connects : List ConnAttempt)
    (startLast : Nat) (polls : List PollIter) (st0 : ServerState) : WdResult :=
  wd_connect idleTimeout connects polls startLast st0

/-! ## Supporting lemmas: varint reader -/

/-- Unfolding equation of `write_varint_nat` packaged for rewriting. -/
theorem write_varint_nat_eq (n : Nat) :
    write_varint_nat n =
      if n < 128 then [n] else (n % 128 + 128) :: write_varint_nat (n / 128) := by
  rw [write_varint_nat]

theorem write_varint_nat_length_pos (n : Nat) : 0 < (write_varint_nat n).length := by
  rw [write_varint_nat_eq]
  split <;> simp

theorem read_varint_loop_none_iff :
    ∀ (buf : List Nat) (r acc : Nat), r < 5 →
      (read_varint_loop buf r acc = none ↔ ∀ b ∈ buf.take (5 - r), b &&& 0x80 ≠ 0)
  | [], r, acc, _ => by simp [read_varint_loop]
  | b :: rest, r, acc, hr => by
    have htake : (b :: rest).take (5 - r) = b :: rest.take (4 - r) := by
      have h54 : 5 - r = (4 - r) + 1 := by omega
      rw [h54, List.take_succ_cons]
    rw [htake]
    by_cases hb : b &&& 0x80 = 0
    · simp only [read_varint_loop, hb, if_pos rfl, if_true]
      constructor
      · intro h; exact absurd h (by simp)
      · intro h
        exact absurd hb (h b (by simp))
    · by_cases h5 : 5 ≤ r + 1
      · have hr4 : r = 4 := by omega
        subst hr4
        simp [read_varint_loop, hb]
      · have hrec := read_varint_loop_none_iff rest (r + 1)
          (acc ||| (((b &&& 0x7F) <<< (7 * r)) % 2 ^ 32)) (by omega)
        have h45 : 5 - (r + 1) = 4 - r := by omega
        rw [h45] at hrec
        simp only [read_varint_loop, hb, if_neg h5, if_false]
        rw [hrec]
        constructor
        · intro h c hc
          rcases List.mem_cons.mp hc with rfl | hc
          · exact hb
          · exact h c hc
        · intro h c hc
          exact h c (List.mem_cons_of_mem _ hc)

/-- Claim C8: the varint reader returns malformed exactly when the buffer is
empty or no byte with the continuation (high) bit clear appears within the
first 5 bytes; in particular `[0x80, 0x80, 0x80, 0x80, 0x80]` is malformed. -/
theorem read_varint_malformed_iff :
    (∀ buf : List Nat,
      read_varint buf = none ↔ (buf = [] ∨ ∀ b ∈ buf.take 5, b &&& 0x80 ≠ 0)) ∧
    read_varint [0x80, 0x80, 0x80, 0x80, 0x80] = none := by
  constructor
  · intro buf
    have h := read_varint_loop_none_iff buf 0 0 (by omega)
    norm_num at h
    rw [read_varint, h]
    constructor
    · exact Or.inr
    · rintro (rfl | h)
      · simp
      · exact h
  · decide

theorem read_varint_loop_le :
    ∀ (buf : List Nat) (r acc : Nat) (v : Int) (k : Nat), r < 5 →
      read_varint_loop buf r acc = some (v, k) → r < k ∧ k ≤ 5 ∧ k ≤ r + buf.length
  | [], _, _, _, _, _, h => by simp [read_varint_loop] at h
  | b :: rest, r, acc, v, k, hr, h => by
    by_cases hb : b &&& 0x80 = 0
    · simp only [read_varint_loop, hb, if_pos rfl, if_true, Option.some.injEq, Prod.mk.injEq] at h
      have hk : k = r + 1 := h.2.symm
      subst hk
      simp
      omega
    · by_cases h5 : 5 ≤ r + 1
      · simp [read_varint_loop, hb, h5] at h
      · simp only [read_varint_loop, hb, if_neg h5, if_false] at h
        have := read_varint_loop_le rest (r + 1) _ v k (by omega) h
        simp only [List.length_cons]
        omega

/-- Bounds on a successful varint read: at least one byte, at most five, and
never more than the supplied slice holds. -/
theorem read_varint_le {buf : List Nat} {v : Int} {k : Nat}
    (h : read_varint buf = some (v, k)) : 1 ≤ k ∧ k ≤ 5 ∧ k ≤ buf.length := by
  have := read_varint_loop_le buf 0 0 v k (by omega) h
  omega

/-! ## Supporting lemmas: varint writer -/

theorem write_varint_neg :
    ∀ (fuel : Nat) (val : Int) (buf : List Nat), val < 0 → write_varint fuel val buf = none
  | 0, _, _, _ => rfl
  | fuel + 1, val, buf, h => by
    rw [write_varint, if_neg (by omega)]
    refine write_varint_neg fuel _ _ ?_
    rw [Int.fdiv_eq_ediv _ (by norm_num)]
    exact Int.ediv_neg' h (by norm_num)

/-- Claim C7 (evidence of the divergence): on a negative `i32` input the
`write_varint` loop never reaches its exit condition — for every amount of
fuel it is still running (the guard `(val & !0x7F) == 0` is never true and the
arithmetic shift keeps the value negative), so the source loops forever. -/
theorem write_varint_negative_diverges (val : Int) (h : val < 0) :
    ∀ (fuel : Nat) (buf : List Nat), write_varint fuel val buf = none :=
  fun fuel buf => write_varint_neg fuel val buf h

theorem write_varint_negative_diverges_witness :
    write_varint 1000 (-1) [] = none :=
  write_varint_negative_diverges (-1) (by norm_num) 1000 []

/-- Claim C1: `switch_to` accepts exactly the legal transitions, the
`Stopped → Stopped` self-transition succeeds as a no-op, and every rejected
transition leaves the state unchanged. -/
theorem switch_to_transition_legality :
    (∀ cur new : ServerState, (switch_to cur new).isSome = legal_transition cur new) ∧
    switch_to .Stopped .Stopped = some .Stopped ∧
    (∀ cur new : ServerState,
      apply_switch cur new = if legal_transition cur new then new else cur) := by
  refine ⟨?_, rfl, ?_⟩ <;> intro cur new <;> cases cur <;> cases new <;> rfl

theorem and_127_eq_mod (x : Nat) : x &&& 127 = x % 128 := by
  have h := Nat.and_pow_two_sub_one_eq_mod x 7
  norm_num at h
  exact h

theorem and_128_eq_zero {x : Nat} (h : x < 128) : x &&& 128 = 0 := by
  have h2 := Nat.and_two_pow x 7
  norm_num at h2
  rw [h2, Nat.testBit_eq_false_of_lt (by norm_num; omega)]
  simp

theorem and_128_ne_zero {x : Nat} (h1 : 128 ≤ x) (h2 : x < 256) : x &&& 128 ≠ 0 := by
  have h3 := Nat.and_two_pow x 7
  norm_num at h3
  rw [h3]
  have ht : x.testBit 7 = true := by
    rw [Nat.testBit_to_div_mod]
    norm_num
    omega
  simp [ht]

theorem lor_shiftLeft_eq_add {acc : Nat} (k v : Nat) (h : acc < 2 ^ k) :
    acc ||| (v <<< k) = acc + v * 2 ^ k := by
  rw [Nat.shiftLeft_eq, Nat.lor_comm, Nat.mul_comm v (2 ^ k), ← Nat.mul_add_lt_is_or h v]
  omega

/-- The bytes the writer produces for a value below `2 ^ 31`, read back by the
reader's loop starting at position `r` with accumulator `acc`, extend the
accumulator by the value shifted into place and advance `num_read` by the byte
count. -/
theorem read_varint_loop_write (v : Nat) : ∀ (rest : List Nat) (r acc : Nat),
    r + (write_varint_nat v).length ≤ 5 →
    acc < 2 ^ (7 * r) →
    acc + v * 2 ^ (7 * r) < 2 ^ 31 →
    read_varint_loop (write_varint_nat v ++ rest) r acc =
      some (((acc + v * 2 ^ (7 * r) : Nat) : Int), r + (write_varint_nat v).length) := by
  induction v using Nat.strong_induction_on with
  | _ v ih =>
    intro rest r acc h5 hacc hv
    have hlenpos := write_varint_nat_length_pos v
    have hr4 : r ≤ 4 := by omega
    have hpow28 : (2 : Nat) ^ (7 * r) ≤ 2 ^ 28 := Nat.pow_le_pow_right (by omega) (by omega)
    by_cases hsmall : v < 128
    · rw [write_varint_nat_eq, if_pos hsmall, List.singleton_append]
      have hv127 : v &&& 127 = v := by rw [and_127_eq_mod, Nat.mod_eq_of_lt hsmall]
      have hvlt : v <<< (7 * r) < 2 ^ 32 := by
        rw [Nat.shiftLeft_eq]
        have h32 : (2 : Nat) ^ 31 < 2 ^ 32 := by norm_num
        omega
      have hkey : acc ||| ((v <<< (7 * r)) % 2 ^ 32) = acc + v * 2 ^ (7 * r) := by
        rw [Nat.mod_eq_of_lt hvlt, lor_shiftLeft_eq_add (7 * r) v hacc]
      rw [read_varint_loop, if_pos (and_128_eq_zero hsmall), hv127, hkey,
        toI32, if_pos (by omega)]
      norm_num
    · rw [write_varint_nat_eq, if_neg hsmall, List.cons_append]
      have hlen : ((v % 128 + 128) :: write_varint_nat (v / 128)).length =
          (write_varint_nat (v / 128)).length + 1 := List.length_cons _ _
      have hlenv : (write_varint_nat v).length = (write_varint_nat (v / 128)).length + 1 := by
        rw [write_varint_nat_eq, if_neg hsmall]
        exact List.length_cons _ _
      rw [hlenv] at h5
      rw [hlen]
      have hlenpos2 := write_varint_nat_length_pos (v / 128)
      have hmod : v % 128 < 128 := Nat.mod_lt _ (by omega)
      have hb_hi : (v % 128 + 128) &&& 128 ≠ 0 := and_128_ne_zero (by omega) (by omega)
      have hr3 : r ≤ 3 := by omega
      have hbyte127 : (v % 128 + 128) &&& 127 = v % 128 := by
        rw [and_127_eq_mod]
        omega
      have hvlt : (v % 128) <<< (7 * r) < 2 ^ 32 := by
        rw [Nat.shiftLeft_eq]
        have hle : (v % 128) * 2 ^ (7 * r) ≤ v * 2 ^ (7 * r) :=
          Nat.mul_le_mul_right _ (Nat.mod_le v 128)
        have h32 : (2 : Nat) ^ 31 < 2 ^ 32 := by norm_num
        omega
      have hkey : acc ||| (((v % 128) <<< (7 * r)) % 2 ^ 32) =
          acc + (v % 128) * 2 ^ (7 * r) := by
        rw [Nat.mod_eq_of_lt hvlt, lor_shiftLeft_eq_add (7 * r) (v % 128) hacc]
      rw [read_varint_loop, if_neg hb_hi, if_neg (by omega), hbyte127, hkey]
      have hpow : (2 : Nat) ^ (7 * (r + 1)) = 2 ^ (7 * r) * 128 := by
        rw [show 7 * (r + 1) = 7 * r + 7 by ring, pow_add]
        norm_num
      have hsum : acc + (v % 128) * 2 ^ (7 * r) + (v / 128) * 2 ^ (7 * (r + 1)) =
          acc + v * 2 ^ (7 * r) := by
        rw [hpow]
        have hdm : v % 128 + 128 * (v / 128) = v := Nat.mod_add_div v 128
        calc acc + (v % 128) * 2 ^ (7 * r) + (v / 128) * (2 ^ (7 * r) * 128) =
            acc + (v % 128 + 128 * (v / 128)) * 2 ^ (7 * r) := by ring
          _ = acc + v * 2 ^ (7 * r) := by rw [hdm]
      have hrec := ih (v / 128) (Nat.div_lt_self (by omega) (by omega)) rest (r + 1)
        (acc + (v % 128) * 2 ^ (7 * r))
        (by omega)
        (by
          rw [hpow]
          nlinarith [hacc, hmod])
        (by rw [hsum]; exact hv)
      rw [hrec, hsum]
      have hL : r + 1 + (write_varint_nat (v / 128)).length =
          r + ((write_varint_nat (v / 128)).length + 1) := by omega
      rw [hL]

theorem write_varint_nat_length_le :
    ∀ (k n : Nat), n < 128 ^ (k + 1) → (write_varint_nat n).length ≤ k + 1
  | 0, n, h => by
    rw [write_varint_nat_eq, if_pos (by norm_num at h; omega)]
    simp
  | k + 1, n, h => by
    by_cases hsmall : n < 128
    · rw [write_varint_nat_eq, if_pos hsmall]
      simp
    · rw [write_varint_nat_eq, if_neg hsmall, List.length_cons]
      have hdiv : n / 128 < 128 ^ (k + 1) := by
        rw [Nat.div_lt_iff_lt_mul (by omega)]
        calc n < 128 ^ (k + 2) := h
          _ = 128 ^ (k + 1) * 128 := by ring
      have := write_varint_nat_length_le k (n / 128) hdiv
      omega

/-- Bridge between the fuelled embedding of the `write_varint` loop and the
value-recursive byte sequence: on a non-negative value the loop terminates
within the byte count and appends exactly those bytes. -/
theorem write_varint_eq_nat (n : Nat) : ∀ (fuel : Nat) (buf : List Nat),
    (write_varint_nat n).length ≤ fuel →
    write_varint fuel (n : Int) buf = some (buf ++ write_varint_nat n) := by
  induction n using Nat.strong_induction_on with
  | _ n ih =>
    intro fuel buf hfuel
    have hlenpos := write_varint_nat_length_pos n
    obtain ⟨f, rfl⟩ : ∃ f, fuel = f + 1 := ⟨fuel - 1, by omega⟩
    by_cases hsmall : n < 128
    · rw [write_varint_nat_eq, if_pos hsmall]
      rw [write_varint, if_pos ⟨by positivity, by exact_mod_cast hsmall⟩]
      simp
    · rw [write_varint, if_neg (by omega)]
      have hfdiv : Int.fdiv (n : Int) 128 = ((n / 128 : Nat) : Int) := by
        rw [Int.fdiv_eq_ediv _ (by norm_num)]
        push_cast
        rfl
      have hbyte : (((n : Int) % 128).toNat + 128) = n % 128 + 128 := by
        push_cast
        rfl
      have hlenv : (write_varint_nat n).length = (write_varint_nat (n / 128)).length + 1 := by
        rw [write_varint_nat_eq, if_neg hsmall]
        exact List.length_cons _ _
      rw [hfdiv, hbyte, ih (n / 128) (Nat.div_lt_self (by omega) (by omega)) f
        (buf ++ [n % 128 + 128]) (by omega)]
      rw [show write_varint_nat n = (n % 128 + 128) :: write_varint_nat (n / 128) from by
        rw [write_varint_nat_eq, if_neg hsmall]]
      simp

/-- A value below `2 ^ 31` written at the head of a buffer reads back exactly,
consuming exactly the written bytes. -/
theorem read_varint_write (v : Nat) (rest : List Nat) (hv : v < 2 ^ 31) :
    read_varint (write_varint_nat v ++ rest) =
      some ((v : Int), (write_varint_nat v).length) := by
  have hlen : (write_varint_nat v).length ≤ 5 := by
    have := write_varint_nat_length_le 4 v (by norm_num; omega)
    omega
  have h := read_varint_loop_write v rest 0 0 (by omega) (by norm_num) (by omega)
  simpa using h

/-- Claim C3: writing any non-negative 32-bit integer `n` into an empty
buffer and decoding the result yields exactly `(n, L)` with `L` the number of
appended bytes and `L ∈ {1, 2, 3, 4, 5}`. -/
theorem varint_round_trip (n : Nat) (h : n < 2 ^ 31) :
    write_varint 5 (n : Int) [] = some (write_varint_nat n) ∧
    read_varint (write_varint_nat n) = some ((n : Int), (write_varint_nat n).length) ∧
    1 ≤ (write_varint_nat n).length ∧ (write_varint_nat n).length ≤ 5 := by
  have hlen : (write_varint_nat n).length ≤ 5 := by
    have := write_varint_nat_length_le 4 n (by norm_num; omega)
    omega
  refine ⟨?_, ?_, write_varint_nat_length_pos n, hlen⟩
  · simpa using write_varint_eq_nat n 5 [] hlen
  · have := read_varint_write n [] h
    simpa using this

theorem varint_round_trip_witness :
    write_varint 5 ((300 : Nat) : Int) [] = some (write_varint_nat 300) ∧
    read_varint (write_varint_nat 300) =
      some (((300 : Nat) : Int), (write_varint_nat 300).length) ∧
    1 ≤ (write_varint_nat 300).length ∧ (write_varint_nat 300).length ≤ 5 :=
  varint_round_trip 300 (by norm_num)

/-- Claim C10 (part): the embedded handshake inspector never reaches an
out-of-range slice — every parse returns an outcome. -/
theorem verify_handshake_packet_isSome (motdJson buf : List Nat) :
    (verify_handshake_packet motdJson buf).isSome := by
  cases h1 : read_varint buf with
  | none => simp [verify_handshake_packet, h1]
  | some p1 =>
  obtain ⟨v1, off1⟩ := p1
  have hb1 := read_varint_le h1
  have hlen1 : (buf.drop off1).length = buf.length - off1 := List.length_drop _ _
  have hs1 : subslice buf off1 = some (buf.drop off1) := by
    rw [subslice, if_pos (by omega)]
  cases h2 : read_varint (buf.drop off1) with
  | none => simp [verify_handshake_packet, h1, hs1, h2]
  | some p2 =>
  obtain ⟨pktId, off2⟩ := p2
  have hb2 := read_varint_le h2
  by_cases hpk : pktId = 0
  case neg => simp [verify_handshake_packet, h1, hs1, h2, hpk]
  case pos =>
  have hlen2 : (buf.drop (off1 + off2)).length = buf.length - (off1 + off2) :=
    List.length_drop _ _
  have hs2 : subslice buf (off1 + off2) = some (buf.drop (off1 + off2)) := by
    rw [subslice, if_pos (by omega)]
  cases h3 : read_varint (buf.drop (off1 + off2)) with
  | none => simp [verify_handshake_packet, h1, hs1, h2, hpk, hs2, h3]
  | some p3 =>
  obtain ⟨pv, len1⟩ := p3
  have hb3 := read_varint_le h3
  have hlen3 : (buf.drop (off1 + off2 + len1)).length = buf.length - (off1 + off2 + len1) :=
    List.length_drop _ _
  have hs3 : subslice buf (off1 + off2 + len1) = some (buf.drop (off1 + off2 + len1)) := by
    rw [subslice, if_pos (by omega)]
  cases h4 : read_varint (buf.drop (off1 + off2 + len1)) with
  | none => simp [verify_handshake_packet, h1, hs1, h2, hpk, hs2, h3, hs3, h4]
  | some p4 =>
  obtain ⟨addrLen, len2⟩ := p4
  have hb4 := read_varint_le h4
  by_cases haddr : addrLen < 0
  case pos => simp [verify_handshake_packet, h1, hs1, h2, hpk, hs2, h3, hs3, h4, haddr]
  case neg =>
  by_cases hoff : buf.length ≤ off1 + off2 + len1 + len2 + addrLen.toNat + 2
  case pos => simp [verify_handshake_packet, h1, hs1, h2, hpk, hs2, h3, hs3, h4, haddr, hoff]
  case neg =>
  have hs4 : subslice buf (off1 + off2 + len1 + len2 + addrLen.toNat + 2) =
      some (buf.drop (off1 + off2 + len1 + len2 + addrLen.toNat + 2)) := by
    rw [subslice, if_pos (by omega)]
  cases h5 : read_varint (buf.drop (off1 + off2 + len1 + len2 + addrLen.toNat + 2)) with
  | none => simp [verify_handshake_packet, h1, hs1, h2, hpk, hs2, h3, hs3, h4, haddr, hoff, hs4, h5]
  | some p5 =>
  obtain ⟨ns, lns⟩ := p5
  simp only [verify_handshake_packet, h1, hs1, h2, hpk, hs2, h3, hs3, h4, hs4, h5]
  norm_num [haddr, hoff]
  split_ifs <;> simp

theorem subslice_append (l₁ l₂ : List Nat) : subslice (l₁ ++ l₂) l₁.length = some l₂ := by
  rw [subslice, if_pos (by simp)]
  simp

theorem subslice_of_eq {l : List Nat} (l₁ l₂ : List Nat) (h : l = l₁ ++ l₂) {k : Nat}
    (hk : l₁.length = k) : subslice l k = some l₂ := by
  subst h
  subst hk
  exact subslice_append l₁ l₂

/-- Outcome of the handshake inspector on a protocol-shaped packet: the
packet-length field is discarded, a non-zero packet ID is ignored, and
otherwise the next-state field alone decides the outcome. -/
theorem verify_wellformed (motdJson : List Nat) (L pid proto : Nat) (addr : List Nat)
    (p1 p2 ns : Nat) (hL : L < 2 ^ 31) (hpid : pid < 2 ^ 31) (hproto : proto < 2 ^ 31)
    (haddr : addr.length < 2 ^ 31) (hns : ns < 2 ^ 31) :
    verify_handshake_packet motdJson
      (write_varint_nat L ++ (write_varint_nat pid ++ (write_varint_nat proto ++
        (write_varint_nat addr.length ++ (addr ++ ([p1, p2] ++ write_varint_nat ns)))))) =
      (if pid ≠ 0 then some ⟨false, []⟩
       else some ⟨decide (ns = 2), if ns = 1 then status_packet motdJson else []⟩) := by
  by_cases hpid0 : pid = 0
  case neg =>
    have e1 : read_varint (write_varint_nat L ++ (write_varint_nat pid ++ (write_varint_nat proto ++
        (write_varint_nat addr.length ++ (addr ++ ([p1, p2] ++ write_varint_nat ns)))))) =
        some ((L : Int), (write_varint_nat L).length) := read_varint_write L _ hL
    have s1 : subslice (write_varint_nat L ++ (write_varint_nat pid ++ (write_varint_nat proto ++
        (write_varint_nat addr.length ++ (addr ++ ([p1, p2] ++ write_varint_nat ns))))))
        (write_varint_nat L).length =
        some (write_varint_nat pid ++ (write_varint_nat proto ++
          (write_varint_nat addr.length ++ (addr ++ ([p1, p2] ++ write_varint_nat ns))))) :=
      subslice_append _ _
    have e2 : read_varint (write_varint_nat pid ++ (write_varint_nat proto ++
        (write_varint_nat addr.length ++ (addr ++ ([p1, p2] ++ write_varint_nat ns))))) =
        some ((pid : Int), (write_varint_nat pid).length) := read_varint_write pid _ hpid
    have hpidInt : ((pid : Nat) : Int) ≠ 0 := by exact_mod_cast hpid0
    simp only [verify_handshake_packet, e1, s1, e2]
    rw [if_pos hpidInt, if_pos hpid0]
  case pos =>
    subst hpid0
    have hw1 : write_varint_nat 0 = [0] := by
      rw [write_varint_nat_eq]
      norm_num
    rw [hw1]
    simp only [List.cons_append, List.nil_append]
    have e1 : read_varint (write_varint_nat L ++ ((0 : Nat) :: (write_varint_nat proto ++
        (write_varint_nat addr.length ++ (addr ++ (p1 :: p2 :: write_varint_nat ns)))))) =
        some ((L : Int), (write_varint_nat L).length) := by
      have := read_varint_write L ((0 : Nat) :: (write_varint_nat proto ++
        (write_varint_nat addr.length ++ (addr ++ (p1 :: p2 :: write_varint_nat ns))))) hL
      exact this
    have s1 : subslice (write_varint_nat L ++ ((0 : Nat) :: (write_varint_nat proto ++
        (write_varint_nat addr.length ++ (addr ++ (p1 :: p2 :: write_varint_nat ns))))))
        (write_varint_nat L).length =
        some ((0 : Nat) :: (write_varint_nat proto ++
          (write_varint_nat addr.length ++ (addr ++ (p1 :: p2 :: write_varint_nat ns))))) :=
      subslice_append _ _
    have e2 : read_varint ((0 : Nat) :: (write_varint_nat proto ++
        (write_varint_nat addr.length ++ (addr ++ (p1 :: p2 :: write_varint_nat ns))))) =
        some ((0 : Int), 1) := by
      have := read_varint_write 0 (write_varint_nat proto ++
        (write_varint_nat addr.length ++ (addr ++ (p1 :: p2 :: write_varint_nat ns))))
        (by norm_num)
      simpa [hw1] using this
    have s2 : subslice (write_varint_nat L ++ ((0 : Nat) :: (write_varint_nat proto ++
        (write_varint_nat addr.length ++ (addr ++ (p1 :: p2 :: write_varint_nat ns))))))
        ((write_varint_nat L).length + 1) =
        some (write_varint_nat proto ++
          (write_varint_nat addr.length ++ (addr ++ (p1 :: p2 :: write_varint_nat ns)))) :=
      subslice_of_eq (write_varint_nat L ++ [0]) _ (by simp) (by simp)
    have e3 : read_varint (write_varint_nat proto ++
        (write_varint_nat addr.length ++ (addr ++ (p1 :: p2 :: write_varint_nat ns)))) =
        some ((proto : Int), (write_varint_nat proto).length) := read_varint_write proto _ hproto
    have s3 : subslice (write_varint_nat L ++ ((0 : Nat) :: (write_varint_nat proto ++
        (write_varint_nat addr.length ++ (addr ++ (p1 :: p2 :: write_varint_nat ns))))))
        ((write_varint_nat L).length + 1 + (write_varint_nat proto).length) =
        some (write_varint_nat addr.length ++ (addr ++ (p1 :: p2 :: write_varint_nat ns))) :=
      subslice_of_eq (write_varint_nat L ++ [0] ++ write_varint_nat proto) _ (by simp)
        (by simp; omega)
    have e4 : read_varint (write_varint_nat addr.length ++ (addr ++ (p1 :: p2 :: write_varint_nat ns))) =
        some ((addr.length : Int), (write_varint_nat addr.length).length) :=
      read_varint_write addr.length _ haddr
    have haneg : ¬((addr.length : Int) < 0) := by omega
    have s4 : subslice (write_varint_nat L ++ ((0 : Nat) :: (write_varint_nat proto ++
        (write_varint_nat addr.length ++ (addr ++ (p1 :: p2 :: write_varint_nat ns))))))
        ((write_varint_nat L).length + 1 + (write_varint_nat proto).length +
          (write_varint_nat addr.length).length + addr.length + 2) =
        some (write_varint_nat ns) :=
      subslice_of_eq
        (write_varint_nat L ++ [0] ++ write_varint_nat proto ++ write_varint_nat addr.length ++
          addr ++ [p1, p2]) _ (by simp) (by simp; omega)
    have e5 : read_varint (write_varint_nat ns) = some ((ns : Int), (write_varint_nat ns).length) := by
      simpa using read_varint_write ns [] hns
    have hofff : ¬((write_varint_nat L ++ ((0 : Nat) :: (write_varint_nat proto ++
        (write_varint_nat addr.length ++ (addr ++ (p1 :: p2 :: write_varint_nat ns)))))).length ≤
        (write_varint_nat L).length + 1 + (write_varint_nat proto).length +
          (write_varint_nat addr.length).length + addr.length + 2) := by
      have := write_varint_nat_length_pos ns
      simp [List.length_append]
      omega
    simp only [verify_handshake_packet, e1, s1, e2, s2, e3, s3, e4, s4, e5, Int.toNat_natCast]
    rw [if_neg (show ¬((0 : Int) ≠ 0) by norm_num), if_neg haneg, if_neg hofff,
      if_neg (show ¬((0 : Nat) ≠ 0) by norm_num)]
    by_cases h1 : ns = 1
    · subst h1
      norm_num
    · by_cases h2 : ns = 2
      · subst h2
        norm_num
      · have hc1 : ((ns : Nat) : Int) ≠ 1 := by exact_mod_cast h1
        have hc2 : ((ns : Nat) : Int) ≠ 2 := by exact_mod_cast h2
        rw [if_neg hc1, if_neg hc2, if_neg h1]
        simp [h2]

theorem mkHandshake_decomp (pid proto : Nat) (addr : List Nat) (p1 p2 ns : Nat) :
    mkHandshake pid proto addr p1 p2 ns =
      write_varint_nat (write_varint_nat pid ++ write_varint_nat proto ++
          write_varint_nat addr.length ++ addr ++ [p1, p2] ++ write_varint_nat ns).length ++
        (write_varint_nat pid ++ (write_varint_nat proto ++
          (write_varint_nat addr.length ++ (addr ++ ([p1, p2] ++ write_varint_nat ns))))) := by
  rw [mkHandshake]
  simp [List.append_assoc]

theorem mkHandshake_body_lt (pid proto : Nat) (addr : List Nat) (p1 p2 ns : Nat)
    (hpid : pid < 2 ^ 31) (hproto : proto < 2 ^ 31) (hns : ns < 2 ^ 31)
    (haddr : addr.length ≤ 2 ^ 20) :
    (write_varint_nat pid ++ write_varint_nat proto ++ write_varint_nat addr.length ++
      addr ++ [p1, p2] ++ write_varint_nat ns).length < 2 ^ 31 := by
  have h1 : (write_varint_nat pid).length ≤ 5 := by
    have := write_varint_nat_length_le 4 pid (by norm_num; omega)
    omega
  have h2 : (write_varint_nat proto).length ≤ 5 := by
    have := write_varint_nat_length_le 4 proto (by norm_num; omega)
    omega
  have h3 : (write_varint_nat addr.length).length ≤ 5 := by
    have := write_varint_nat_length_le 4 addr.length (by norm_num; omega)
    omega
  have h4 : (write_varint_nat ns).length ≤ 5 := by
    have := write_varint_nat_length_le 4 ns (by norm_num; omega)
    omega
  simp [List.length_append]
  omega

/-- Claim C2: on protocol-shaped buffers the inspector matches the truth
table — next-state 1 is classified not-login and the status-listing packet is
written to the peer, next-state 2 is classified login with nothing written,
any other next-state is not-login with nothing written; a non-zero packet ID
is ignored (not-login, nothing written); and a varint read that underflows
the buffer at any of the five read sites the parser can reach (packet
length, packet ID, protocol version, address length, next state) yields the
ignore outcome. -/
theorem handshake_truth_table :
    (∀ (motdJson : List Nat) (proto : Nat) (addr : List Nat) (p1 p2 ns : Nat),
      proto < 2 ^ 31 → ns < 2 ^ 31 → addr.length ≤ 2 ^ 20 →
      verify_handshake_packet motdJson (mkHandshake 0 proto addr p1 p2 ns) =
        some ⟨decide (ns = 2), if ns = 1 then status_packet motdJson else []⟩) ∧
    (∀ (motdJson : List Nat) (pid proto : Nat) (addr : List Nat) (p1 p2 ns : Nat),
      pid ≠ 0 → pid < 2 ^ 31 → proto < 2 ^ 31 → ns < 2 ^ 31 → addr.length ≤ 2 ^ 20 →
      verify_handshake_packet motdJson (mkHandshake pid proto addr p1 p2 ns) =
        some ⟨false, []⟩) ∧
    (∀ (motdJson buf : List Nat), read_varint buf = none →
      verify_handshake_packet motdJson buf = some ⟨false, []⟩) ∧
    (∀ (motdJson buf : List Nat) (v1 : Int) (off1 : Nat),
      read_varint buf = some (v1, off1) →
      read_varint (buf.drop off1) = none →
      verify_handshake_packet motdJson buf = some ⟨false, []⟩) ∧
    (∀ (motdJson buf : List Nat) (v1 : Int) (off1 off2 : Nat),
      read_varint buf = some (v1, off1) →
      read_varint (buf.drop off1) = some (0, off2) →
      read_varint (buf.drop (off1 + off2)) = none →
      verify_handshake_packet motdJson buf = some ⟨false, []⟩) ∧
    (∀ (motdJson buf : List Nat) (v1 pv : Int) (off1 off2 len1 : Nat),
      read_varint buf = some (v1, off1) →
      read_varint (buf.drop off1) = some (0, off2) →
      read_varint (buf.drop (off1 + off2)) = some (pv, len1) →
      read_varint (buf.drop (off1 + off2 + len1)) = none →
      verify_handshake_packet motdJson buf = some ⟨false, []⟩) ∧
    (∀ (motdJson buf : List Nat) (v1 pv aLen : Int) (off1 off2 len1 len2 : Nat),
      read_varint buf = some (v1, off1) →
      read_varint (buf.drop off1) = some (0, off2) →
      read_varint (buf.drop (off1 + off2)) = some (pv, len1) →
      read_varint (buf.drop (off1 + off2 + len1)) = some (aLen, len2) →
      ¬(aLen < 0) →
      ¬(buf.length ≤ off1 + off2 + len1 + len2 + aLen.toNat + 2) →
      read_varint (buf.drop (off1 + off2 + len1 + len2 + aLen.toNat + 2)) = none →
      verify_handshake_packet motdJson buf = some ⟨false, []⟩) := by
  refine ⟨?_, ?_, ?_, ?_, ?_, ?_, ?_⟩
  · intro motdJson proto addr p1 p2 ns hproto hns haddr
    rw [mkHandshake_decomp]
    rw [verify_wellformed motdJson _ 0 proto addr p1 p2 ns
      (mkHandshake_body_lt 0 proto addr p1 p2 ns (by norm_num) hproto hns haddr)
      (by norm_num) hproto (by omega) hns]
    norm_num
  · intro motdJson pid proto addr p1 p2 ns hpid0 hpid hproto hns haddr
    rw [mkHandshake_decomp]
    rw [verify_wellformed motdJson _ pid proto addr p1 p2 ns
      (mkHandshake_body_lt pid proto addr p1 p2 ns hpid hproto hns haddr)
      hpid hproto (by omega) hns]
    rw [if_pos hpid0]
  · intro motdJson buf h
    simp [verify_handshake_packet, h]
  · intro motdJson buf v1 off1 h1 h2
    have hb1 := read_varint_le h1
    have hs1 : subslice buf off1 = some (buf.drop off1) := by
      rw [subslice, if_pos (by omega)]
    simp [verify_handshake_packet, h1, hs1, h2]
  · intro motdJson buf v1 off1 off2 h1 h2 h3
    have hb1 := read_varint_le h1
    have hb2 := read_varint_le h2
    have hlen1 : (buf.drop off1).length = buf.length - off1 := List.length_drop _ _
    have hs1 : subslice buf off1 = some (buf.drop off1) := by
      rw [subslice, if_pos (by omega)]
    have hs2 : subslice buf (off1 + off2) = some (buf.drop (off1 + off2)) := by
      rw [subslice, if_pos (by omega)]
    simp [verify_handshake_packet, h1, hs1, h2, hs2, h3]
  · intro motdJson buf v1 pv off1 off2 len1 h1 h2 h3 h4
    have hb1 := read_varint_le h1
    have hb2 := read_varint_le h2
    have hb3 := read_varint_le h3
    have hlen1 : (buf.drop off1).length = buf.length - off1 := List.length_drop _ _
    have hlen2 : (buf.drop (off1 + off2)).length = buf.length - (off1 + off2) :=
      List.length_drop _ _
    have hs1 : subslice buf off1 = some (buf.drop off1) := by
      rw [subslice, if_pos (by omega)]
    have hs2 : subslice buf (off1 + off2) = some (buf.drop (off1 + off2)) := by
      rw [subslice, if_pos (by omega)]
    have hs3 : subslice buf (off1 + off2 + len1) = some (buf.drop (off1 + off2 + len1)) := by
      rw [subslice, if_pos (by omega)]
    simp [verify_handshake_packet, h1, hs1, h2, hs2, h3, hs3, h4]
  · intro motdJson buf v1 pv aLen off1 off2 len1 len2 h1 h2 h3 h4 haddr hoff h5
    have hb1 := read_varint_le h1
    have hb2 := read_varint_le h2
    have hb3 := read_varint_le h3
    have hb4 := read_varint_le h4
    have hlen1 : (buf.drop off1).length = buf.length - off1 := List.length_drop _ _
    have hlen2 : (buf.drop (off1 + off2)).length = buf.length - (off1 + off2) :=
      List.length_drop _ _
    have hlen3 : (buf.drop (off1 + off2 + len1)).length = buf.length - (off1 + off2 + len1) :=
      List.length_drop _ _
    have hs1 : subslice buf off1 = some (buf.drop off1) := by
      rw [subslice, if_pos (by omega)]
    have hs2 : subslice buf (off1 + off2) = some (buf.drop (off1 + off2)) := by
      rw [subslice, if_pos (by omega)]
    have hs3 : subslice buf (off1 + off2 + len1) = some (buf.drop (off1 + off2 + len1)) := by
      rw [subslice, if_pos (by omega)]
    have hs4 : subslice buf (off1 + off2 + len1 + len2 + aLen.toNat + 2) =
        some (buf.drop (off1 + off2 + len1 + len2 + aLen.toNat + 2)) := by
      rw [subslice, if_pos (by omega)]
    simp [verify_handshake_packet, h1, hs1, h2, hs2, h3, hs3, h4, hs4, haddr, hoff, h5]

theorem handshake_truth_table_witness :
    verify_handshake_packet [] (mkHandshake 0 767 [] 0 0 2) =
      some ⟨decide ((2 : Nat) = 2), if (2 : Nat) = 1 then status_packet [] else []⟩ ∧
    verify_handshake_packet [] (mkHandshake 9 767 [] 0 0 2) = some ⟨false, []⟩ ∧
    verify_handshake_packet [] [] = some ⟨false, []⟩ ∧
    verify_handshake_packet [] [1] = some ⟨false, []⟩ ∧
    verify_handshake_packet [] [2, 0] = some ⟨false, []⟩ ∧
    verify_handshake_packet [] [3, 0, 0] = some ⟨false, []⟩ ∧
    verify_handshake_packet [] [9, 0, 0, 1, 65, 0, 0, 128] = some ⟨false, []⟩ :=
  ⟨handshake_truth_table.1 [] 767 [] 0 0 2 (by norm_num) (by norm_num) (by norm_num),
   handshake_truth_table.2.1 [] 9 767 [] 0 0 2 (by norm_num) (by norm_num) (by norm_num)
     (by norm_num) (by norm_num),
   handshake_truth_table.2.2.1 [] [] rfl,
   handshake_truth_table.2.2.2.1 [] [1] 1 1 (by decide) (by decide),
   handshake_truth_table.2.2.2.2.1 [] [2, 0] 2 1 1 (by decide) (by decide) (by decide),
   handshake_truth_table.2.2.2.2.2.1 [] [3, 0, 0] 3 0 1 1 1 (by decide) (by decide)
     (by decide) (by decide),
   handshake_truth_table.2.2.2.2.2.2 [] [9, 0, 0, 1, 65, 0, 0, 128] 9 0 1 1 1 1 1
     (by decide) (by decide) (by decide) (by decide) (by decide) (by decide) (by decide)⟩

/-- Claim C10: the handshake inspector's sequential parsing is total — it
always returns an outcome rather than panicking (every modelled slice is in
range), and the varint reader reports a byte count of at least 1, at most 5,
and never larger than the slice it was given. -/
theorem handshake_parse_total :
    (∀ motdJson buf : List Nat, (verify_handshake_packet motdJson buf).isSome) ∧
    (∀ (buf : List Nat) (v : Int) (k : Nat), read_varint buf = some (v, k) →
      1 ≤ k ∧ k ≤ 5 ∧ k ≤ buf.length) :=
  ⟨verify_handshake_packet_isSome, fun _ _ _ h => read_varint_le h⟩

theorem handshake_parse_total_witness :
    (verify_handshake_packet [] [1, 0]).isSome ∧
    (1 ≤ 1 ∧ 1 ≤ 5 ∧ 1 ≤ [(5 : Nat)].length) :=
  ⟨handshake_parse_total.1 [] [1, 0], handshake_parse_total.2 [5] 5 1 (by decide)⟩

/-! ## Supporting lemmas: player-count regex -/

theorem takeWhile_append_of_neg_head {p : Char → Bool} :
    ∀ (l₁ : List Char) (a : Char) (l₂ : List Char), (∀ x ∈ l₁, p x) → p a = false →
      (l₁ ++ a :: l₂).takeWhile p = l₁
  | [], a, l₂, _, ha => by
    have hna : ¬(p a = true) := by simp [ha]
    rw [List.nil_append, List.takeWhile_cons_of_neg hna]
  | b :: l₁, a, l₂, h, ha => by
    have hb : p b = true := h b (by simp)
    rw [List.cons_append, List.takeWhile_cons_of_pos hb,
      takeWhile_append_of_neg_head l₁ a l₂ (fun x hx => h x (by simp [hx])) ha]

theorem drop_takeWhile_length (p : Char → Bool) :
    ∀ l : List Char, l.drop (l.takeWhile p).length = l.dropWhile p
  | [] => rfl
  | a :: l => by
    by_cases h : p a = true
    · rw [List.takeWhile_cons_of_pos h, List.dropWhile_cons_of_pos h, List.length_cons,
        List.drop_succ_cons]
      exact drop_takeWhile_length p l
    · rw [List.takeWhile_cons_of_neg h, List.dropWhile_cons_of_neg h, List.length_nil,
        List.drop_zero]

theorem regex_match_head_pos (ds post : List Char) (hne : ds ≠ [])
    (hdig : ∀ c ∈ ds, c.isDigit) :
    regex_match_head ("There are ".toList ++ (ds ++ (" of a max".toList ++ post))) = some ds := by
  have hsp : (" of a max").toList = ' ' :: "of a max".toList := rfl
  have htw : (ds ++ (" of a max".toList ++ post)).takeWhile Char.isDigit = ds := by
    rw [hsp, List.cons_append]
    exact takeWhile_append_of_neg_head ds ' ' _ hdig (by decide)
  simp only [regex_match_head, show ("There are " : String).length = 10 from rfl,
    show (" of a max" : String).length = 9 from rfl,
    List.take_left' (show ("There are ".toList).length = 10 from rfl),
    List.drop_left' (show ("There are ".toList).length = 10 from rfl), htw,
    List.drop_left' (rfl : ds.length = ds.length),
    List.take_left' (show ((" of a max").toList).length = 9 from rfl), if_pos rfl]
  simp [hne]

theorem regex_match_head_some {cs ds : List Char} (h : regex_match_head cs = some ds) :
    ∃ post, cs = "There are ".toList ++ (ds ++ (" of a max".toList ++ post)) ∧
      ds ≠ [] ∧ ∀ c ∈ ds, c.isDigit := by
  simp only [regex_match_head, show ("There are " : String).length = 10 from rfl,
    show (" of a max" : String).length = 9 from rfl] at h
  split_ifs at h with h1 h2
  · obtain ⟨hne, htail⟩ := h2
    injection h with hds
    subst hds
    rw [drop_takeWhile_length Char.isDigit (cs.drop 10)] at htail
    refine ⟨((cs.drop 10).dropWhile Char.isDigit).drop 9, ?_, hne,
      fun c hc => List.mem_takeWhile_imp hc⟩
    conv_lhs => rw [← List.take_append_drop 10 cs]
    rw [h1]
    congr 1
    conv_lhs => rw [← List.takeWhile_append_dropWhile (p := Char.isDigit) (l := cs.drop 10)]
    congr 1
    conv_lhs => rw [← List.take_append_drop 9 ((cs.drop 10).dropWhile Char.isDigit)]
    rw [htail]

theorem regex_find_of_head {cs ds : List Char} (h : regex_match_head cs = some ds) :
    regex_find cs = some ds := by
  cases cs with
  | nil =>
    have hnone : regex_match_head [] = none := by decide
    simp [hnone] at h
  | cons c cs' => simp only [regex_find, h]

theorem regex_find_some : ∀ (cs ds : List Char), regex_find cs = some ds →
    ∃ pre post, cs = pre ++ ("There are ".toList ++ (ds ++ (" of a max".toList ++ post))) ∧
      ds ≠ [] ∧ ∀ c ∈ ds, c.isDigit
  | [], ds, h => by simp [regex_find] at h
  | c :: cs', ds, h => by
    cases hm : regex_match_head (c :: cs') with
    | some ds' =>
      rw [regex_find, hm] at h
      injection h with hds
      subst hds
      obtain ⟨post, hcs, hne, hdig⟩ := regex_match_head_some hm
      exact ⟨[], post, by simpa using hcs, hne, hdig⟩
    | none =>
      rw [regex_find, hm] at h
      obtain ⟨pre, post, hcs, hne, hdig⟩ := regex_find_some cs' ds h
      exact ⟨c :: pre, post, by simp [hcs], hne, hdig⟩

theorem player_count_match (ds : List Char) (post : String) (hne : ds ≠ [])
    (hdig : ∀ c ∈ ds, c.isDigit) (hlt : digitsToNat ds < 2 ^ 32) :
    player_count ("There are " ++ (String.mk ds ++ (" of a max" ++ post))) = digitsToNat ds := by
  have hdata : ("There are " ++ (String.mk ds ++ (" of a max" ++ post))).data =
      "There are ".toList ++ (ds ++ (" of a max".toList ++ post.data)) := by
    simp [String.data_append]
  rw [player_count, hdata,
    regex_find_of_head (regex_match_head_pos ds post.data hne hdig)]
  show (parse_u32 ds).getD 0 = digitsToNat ds
  simp only [parse_u32]
  rw [if_pos hlt]
  rfl

theorem player_count_nomatch (reply : String)
    (h : ¬ ∃ pre ds post : List Char,
      reply.data = pre ++ ("There are ".toList ++ (ds ++ (" of a max".toList ++ post))) ∧
        ds ≠ [] ∧ ∀ c ∈ ds, c.isDigit) :
    player_count reply = 0 := by
  rw [player_count]
  cases hf : regex_find reply.data with
  | none => rfl
  | some ds =>
    obtain ⟨pre, post, hcs, hne, hdig⟩ := regex_find_some reply.data ds hf
    exact absurd ⟨pre, ds, post, hcs, hne, hdig⟩ h

/-- Claim C4: every poll iteration parses the `list` reply through the
`There are (\d+) of a max` matcher — the first capture is the count and any
non-matching reply counts as zero — and then a positive count records the
current instant as last-seen-occupied, while a zero count with at least the
idle timeout elapsed sends `stop` (its reply ignored) and exits with
success. -/
theorem watchdog_poll_behavior :
    (∀ (ds : List Char) (post : String), ds ≠ [] → (∀ c ∈ ds, c.isDigit) →
      digitsToNat ds < 2 ^ 32 →
      player_count ("There are " ++ (String.mk ds ++ (" of a max" ++ post))) =
        digitsToNat ds) ∧
    (∀ reply : String,
      (¬ ∃ pre ds post : List Char,
        reply.data = pre ++ ("There are ".toList ++ (ds ++ (" of a max".toList ++ post))) ∧
          ds ≠ [] ∧ ∀ c ∈ ds, c.isDigit) →
      player_count reply = 0) ∧
    (∀ (tm : Nat) (rest : List PollIter) (lo : Nat) (st : ServerState) (now : Nat)
        (reply : String),
      (0 < player_count reply →
        wd_poll tm (⟨[some reply], now⟩ :: rest) lo 0 st = wd_poll tm rest now 0 st) ∧
      (player_count reply = 0 → tm ≤ now - lo →
        wd_poll tm (⟨[some reply], now⟩ :: rest) lo 0 st = ⟨.success, st, true⟩)) := by
  refine ⟨player_count_match, player_count_nomatch, ?_⟩
  intro tm rest lo st now reply
  constructor
  · intro hpos
    simp only [wd_poll, rcon_retry_loop]
    rw [if_pos hpos]
  · intro hzero htm
    simp only [wd_poll, rcon_retry_loop]
    rw [if_neg (by omega), if_pos htm]

theorem watchdog_poll_behavior_witness :
    player_count ("There are " ++ (String.mk ['3'] ++ (" of a max" ++ " of 20 players online"))) =
      digitsToNat ['3'] ∧
    wd_poll 600 [⟨[some ("There are 0 of a max of 20 players online")], 700⟩] 0 0 .Running =
      ⟨.success, .Running, true⟩ :=
  ⟨watchdog_poll_behavior.1 ['3'] (" of 20 players online") (by decide) (by decide) (by decide),
   (watchdog_poll_behavior.2.2 600 [] 0 .Running 700
       ("There are 0 of a max of 20 players online")).2 (by decide) (by decide)⟩

theorem rcon_retry_loop_tolerates :
    ∀ (k c s : Nat) (r : String) (rest : List (Option String)), c + k ≤ 5 →
      rcon_retry_loop (List.replicate k none ++ some r :: rest) c s = .got r 0 (s + k)
  | 0, c, s, r, rest, _ => by simp [rcon_retry_loop]
  | k + 1, c, s, r, rest, h => by
    rw [List.replicate_succ, List.cons_append, rcon_retry_loop, if_pos (by omega),
      rcon_retry_loop_tolerates k (c + 1) (s + 1) r rest (by omega)]
    congr 1
    omega

/-- Claim C5: from a fresh iteration, up to 5 consecutive failed command
attempts are each retried after a 1-second sleep and a subsequent success
breaks out with the consecutive-failure counter reset to zero, while a 6th
consecutive failure is fatal — the watchdog task then stores `Stopped` and
exits with an error. -/
theorem watchdog_retry_policy :
    (∀ (k : Nat) (r : String) (rest : List (Option String)), k ≤ 5 →
      rcon_retry_loop (List.replicate k none ++ some r :: rest) 0 0 =
        .got r 0 k) ∧
    (∀ rest : List (Option String),
      rcon_retry_loop (List.replicate 6 none ++ rest) 0 0 = .fatal) ∧
    (∀ (tm : Nat) (rest : List PollIter) (lo : Nat) (st : ServerState) (now : Nat),
      wd_poll tm (⟨List.replicate 6 none, now⟩ :: rest) lo 0 st =
        ⟨.error, .Stopped, false⟩) := by
  refine ⟨?_, ?_, ?_⟩
  · intro k r rest hk
    have := rcon_retry_loop_tolerates k 0 0 r rest (by omega)
    simpa using this
  · intro rest
    rfl
  · intro tm rest lo st now
    rfl

theorem watchdog_retry_policy_witness :
    rcon_retry_loop (List.replicate 5 none ++ some ("There are 1 of a max") :: []) 0 0 =
      .got ("There are 1 of a max") 0 5 :=
  watchdog_retry_policy.1 5 ("There are 1 of a max") [] (by norm_num)

/-! ## Claim C6: watchdog state mutation -/

/-- Counterexample to claim C6: a complete watchdog run (connect succeeds,
one poll sees zero players past the idle timeout, `stop` is sent, the task
exits with success) changes the shared lifecycle state from `Starting` to
`Running` — the watchdog mutates the state itself. -/
theorem watchdog_mutates_state_cex :
    idle_watchdog_rcon 600 [ConnAttempt.ok] 0
        [⟨[some ("There are 0 of a max of 20 players online")], 600⟩] ServerState.Starting =
      ⟨WdExit.success, ServerState.Running, true⟩ ∧
    ServerState.Running ≠ ServerState.Starting := by
  constructor
  · decide
  · decide

theorem wd_poll_exit_state (tm : Nat) :
    ∀ (polls : List PollIter) (lo c : Nat) (st : ServerState),
      ((wd_poll tm polls lo c st).exit = .success → (wd_poll tm polls lo c st).state = st) ∧
      ((wd_poll tm polls lo c st).exit = .error → (wd_poll tm polls lo c st).state = .Stopped)
  | [], lo, c, st => by simp [wd_poll]
  | it :: rest, lo, c, st => by
    cases hr : rcon_retry_loop it.attempts c 0 with
    | pending => simp [wd_poll, hr]
    | fatal => simp [wd_poll, hr]
    | got reply consec1 sleeps =>
      simp only [wd_poll, hr]
      by_cases hpos : 0 < player_count reply
      · rw [if_pos hpos]
        exact wd_poll_exit_state tm rest it.now consec1 st
      · rw [if_neg hpos]
        by_cases htm : tm ≤ it.now - lo
        · rw [if_pos htm]
          simp
        · rw [if_neg htm]
          exact wd_poll_exit_state tm rest lo consec1 st

/-- Claim C6 (amended): the watchdog does mutate the shared lifecycle state —
on a successful connect it stores `Running` (so a run that ends with the
idle-triggered `stop` leaves the state at `Running`, not at its initial
value), and every run that exits with an error (connect retries exhausted, or
a 6th consecutive command failure) leaves the state at `Stopped`. -/
theorem watchdog_state_effect (tm : Nat) :
    ∀ (cs : List ConnAttempt) (sl : Nat) (polls : List PollIter) (st0 : ServerState),
      ((idle_watchdog_rcon tm cs sl polls st0).exit = .success →
        (idle_watchdog_rcon tm cs sl polls st0).state = .Running) ∧
      ((idle_watchdog_rcon tm cs sl polls st0).exit = .error →
        (idle_watchdog_rcon tm cs sl polls st0).state = .Stopped)
  | [], sl, polls, st0 => by simp [idle_watchdog_rcon, wd_connect]
  | .ok :: cs, sl, polls, st0 => by
    rw [idle_watchdog_rcon, wd_connect]
    exact wd_poll_exit_state tm polls sl 0 .Running
  | .err e :: cs, sl, polls, st0 => by
    rw [idle_watchdog_rcon, wd_connect]
    by_cases he : e ≤ 600
    · rw [if_pos he]
      have := watchdog_state_effect tm cs sl polls st0
      rwa [idle_watchdog_rcon] at this
    · rw [if_neg he]
      simp

theorem watchdog_state_effect_witness :
    (idle_watchdog_rcon 600 [ConnAttempt.err 601] 0 [] ServerState.Starting).state =
      ServerState.Stopped :=
  (watchdog_state_effect 600 [ConnAttempt.err 601] 0 [] ServerState.Starting).2 (by decide)

/-! ## Claim C9: configuration defaults -/

/-- Counterexample to claim C9: a configuration file that sets `motd_text`
but omits another recognised field (here `rcon_poll_interval`) does not have
its present field honored — deserialization of the whole struct fails and
`unwrap_or_default()` discards the file, so `motd_text` falls back to the
default instead of the value present in the file. -/
theorem config_partial_file_cex :
    (get_config
        (some ⟨none, none, some ("CUSTOM"), none, none, none, none, none, none, none, []⟩)
        none).motd_text ≠ "CUSTOM" := by
  decide

theorem toml_from_str_requires_poll_interval (d : TomlConfigDoc)
    (h : d.rcon_poll_interval = none) : toml_from_str d = none := by
  obtain ⟨f1, f2, f3, f4, f5, f6, f7, f8, f9, f10, ex⟩ := d
  simp only at h
  subst h
  rfl

/-- Claim C9 (amended): with the file absent every field takes its default;
with the file present and every recognised non-`Option` field present, the
present fields are honored and unrecognised extra keys are ignored; but when
any required field is missing (e.g. `rcon_poll_interval`), deserialization of
the whole file fails and every field takes its default — the fields present
in the file are not honored individually.  In all cases `server_icon` is then
overwritten from the icon file. -/
theorem get_config_defaults :
    get_config none none = Config.default ∧
    (∀ (a b : Nat) (c e : String) (f : Bool) (si : Option String) (g h : String) (i : Bool)
        (j : String) (extras : List String) (icon : Option String),
      get_config (some ⟨some a, some b, some c, some e, some f, si, some g, some h, some i,
          some j, extras⟩) icon =
        ⟨a, b, c, e, f, icon, g, h, i, j⟩) ∧
    (∀ (d : TomlConfigDoc) (icon : Option String), toml_from_str d = none →
      get_config (some d) icon = { Config.default with server_icon := icon }) ∧
    (∀ d : TomlConfigDoc, d.rcon_poll_interval = none → toml_from_str d = none) := by
  refine ⟨rfl, ?_, ?_, toml_from_str_requires_poll_interval⟩
  · intro a b c e f si g h i j extras icon
    rfl
  · intro d icon hnone
    rw [get_config]
    rw [hnone]
    rfl

theorem get_config_defaults_witness :
    get_config
        (some ⟨none, some 120, none, none, none, none, none, none, none, none, []⟩) none =
      { Config.default with server_icon := none } :=
  get_config_defaults.2.2.1 ⟨none, some 120, none, none, none, none, none, none, none, none, []⟩
    none
    (get_config_defaults.2.2.2
      ⟨none, some 120, none, none, none, none, none, none, none, none, []⟩ rfl)
